import Mathlib

/-!
Verification development for the `video_face_detection` repository.

The Python sources are shallowly embedded:
* `modules/face_detector.py` : `FaceDetector` with its external
  `face_recognition` primitives (face location detection, feature
  encoding, feature distance) and `cv2` drawing abstracted as oracle
  functions carried inside the structure;
* `modules/video_processor.py` : `VideoProcessor` state with
  `read_frame`, the per-item body of `process_frame_worker`, the
  debounce/result-drain body of `process_video`, and the control loop,
  where the contents of the worker result queue at each iteration and
  the progress callback verdict are oracle parameters (worker
  completion order is not deterministic, so the drained lists are kept
  arbitrary);
* `modules/utils.py` : `format_time` and the outcome of `save_image`
  (an oracle `Image → Option String`, `none` when persisting fails);
* `app.py` : the skeleton of `process_video_task` that aborts before
  any scan when the reference face fails to load.

Python machine floats are modelled by `ℚ`; Python `int()` truncation
toward zero is `pyInt`.
-/

/-- Pixel buffers are abstract: only identity matters to the claims. -/
abbrev Image : Type := ℕ

/-- A face feature vector is abstract; distances between vectors are
given by an oracle (`face_recognition.face_distance`). -/
abbrev Encoding : Type := ℕ

/-- Python `int(x)`: truncation toward zero. -/
def pyInt (q : ℚ) : ℤ :=
  if q < 0 then Rat.ceil q else Rat.floor q

/-- Model of `utils.format_time` (utils.py lines 165-178): `HH:MM:SS` from a
number of seconds, each component through Python `int()`. -/
def format_time (seconds : ℚ) : String :=
  let hours := pyInt (seconds / 3600)
  let minutes := pyInt ((seconds - 3600 * hours) / 60)
  let secs := pyInt (seconds - 3600 * hours - 60 * minutes)
  toString hours ++ ":" ++ toString minutes ++ ":" ++ toString secs

/-- A detected face bounding box `(top, right, bottom, left)`, the
tuple layout used by `face_recognition.face_locations`. -/
structure FaceLocation where
  top : ℤ
  right : ℤ
  bottom : ℤ
  left : ℤ
deriving DecidableEq, Repr

/-- One entry of the list built by `FaceDetector.match_faces`
(face_detector.py lines 137-140): a location plus its distance to the
reference encoding. -/
structure FaceMatch where
  location : FaceLocation
  distance : ℚ
deriving DecidableEq, Repr

/-- Model of `FaceDetector` (face_detector.py): the loaded reference encoding
and tolerance, together with the external `face_recognition` / `cv2`
primitives the class calls, kept as oracle fields.
`face_encodings img locs` returns one encoding per requested location
(the library guarantee); `draw` is `draw_face_rectangles`, whose
pixel-level effect is irrelevant to the claims. -/
structure FaceDetector where
  reference_face_encoding : Option Encoding
  tolerance : ℚ
  face_locations : Image → List FaceLocation
  face_encodings : Image → List FaceLocation → List Encoding
  face_distance : Encoding → Encoding → ℚ
  draw : Image → List FaceMatch → Image

/-- Model of `FaceDetector.detect_faces` (face_detector.py lines 71-102): a
`none` image yields `([], [])`; otherwise run the locator and, when it
found any face, the encoder. -/
def FaceDetector.detect_faces (fd : FaceDetector) (image : Option Image) :
    List FaceLocation × List Encoding :=
  match image with
  | none => ([], [])
  | some img =>
    let locs := fd.face_locations img
    if locs.isEmpty then ([], [])
    else (locs, fd.face_encodings img locs)

/-- Model of `FaceDetector.match_faces` (face_detector.py lines 104-145): with
no reference loaded or a `none` image return `[]`; otherwise keep, in
detector order, every detected face whose distance to the reference is
strictly below `tolerance`.  The Python loop walks
`enumerate(face_encodings)` and reads `face_locations[i]`, i.e. the
positional pairing `encs.zip locs`. -/
def FaceDetector.match_faces (fd : FaceDetector) (image : Option Image) :
    List FaceMatch :=
  match fd.reference_face_encoding with
  | none => []
  | some ref =>
    match image with
    | none => []
    | some img =>
      let (locs, encs) := fd.detect_faces (some img)
      if encs.isEmpty then []
      else
        (encs.zip locs).foldl
          (fun acc p =>
            let d := fd.face_distance ref p.1
            if d < fd.tolerance then acc ++ [⟨p.2, d⟩] else acc)
          []

/-- Model of `FaceDetector.load_reference_face` (face_detector.py lines 31-69):
fails (returns `false`, encoding untouched) when the image cannot be
loaded or when zero faces are detected; otherwise stores the encoding
of the first detected face (`face_encodings(...)[0]`; an empty encoder
answer would raise and be caught, hence `head?`). -/
def FaceDetector.load_reference_face (fd : FaceDetector)
    (image : Option Image) : FaceDetector × Bool :=
  match image with
  | none => (fd, false)
  | some img =>
    let locs := fd.face_locations img
    if locs.isEmpty then (fd, false)
    else
      match (fd.face_encodings img locs).head? with
      | none => (fd, false)
      | some e => ({ fd with reference_face_encoding := some e }, true)

/-- Model of `FaceDetector.process_frame` (face_detector.py lines 190-220):
no reference or no frame gives `(frame, [], false)`; otherwise match
and, when any face matched, annotate the frame and report `true`. -/
def FaceDetector.process_frame (fd : FaceDetector) (frame : Option Image) :
    Option Image × List FaceMatch × Bool :=
  match fd.reference_face_encoding with
  | none => (frame, [], false)
  | some _ =>
    match frame with
    | none => (none, [], false)
    | some img =>
      let found := fd.match_faces (some img)
      if found.isEmpty then (some img, [], false)
      else (some (fd.draw img found), found, true)

/-- One entry of the worker result queue (video_processor.py lines
181-187). -/
structure FrameResult where
  frame_index : ℤ
  timestamp : ℚ
  has_matches : Bool
  match_list : List FaceMatch
  processed_frame : Image
deriving DecidableEq, Repr

/-- An entry of `detection_results` (video_processor.py lines
287-293): `screenshot_path` is `none` when `save_image` failed. -/
structure DetectionEvent where
  frame_index : ℤ
  timestamp : ℚ
  formatted_time : String
  screenshot_path : Option String
  matches_count : ℕ
deriving DecidableEq, Repr

/-- The mutable attributes of `VideoProcessor` (video_processor.py
lines 19-50) plus the video content behind the `cv2.VideoCapture`
cursor.  `video_frames` is the full loaded video, `remaining` what the
cursor has not yet read; `submitted` is the history of
`frame_queue.put` calls (frame, index, timestamp). -/
structure VideoProcessor where
  detection_frequency : ℕ
  frame_scale : ℚ
  min_time_interval : ℚ
  capture_opened : Bool
  video_frames : List Image
  remaining : List Image
  frame_count : ℕ
  video_fps : ℚ
  processed_frames : ℕ
  matched_frames : ℕ
  current_frame_index : ℤ
  detection_results : List DetectionEvent
  is_processing : Bool
  last_detection_timestamp : ℚ
  submitted : List (Image × ℤ × ℚ)

/-- Model of `VideoProcessor.load_video` (video_processor.py lines 52-95) on
the success path: record the capture and its properties, zero every
counter, clear previous results and set the debounce watermark to
`-min_time_interval` (line 89). -/
def VideoProcessor.load_video (vp : VideoProcessor) (frames : List Image)
    (fc : ℕ) (fps : ℚ) : VideoProcessor :=
  { vp with
    capture_opened := true
    video_frames := frames
    remaining := frames
    frame_count := fc
    video_fps := fps
    current_frame_index := 0
    processed_frames := 0
    matched_frames := 0
    detection_results := []
    last_detection_timestamp := -vp.min_time_interval }

/-- Model of `VideoProcessor.read_frame` (video_processor.py lines 104-127):
sentinel `(none, -1, 0)` when no capture is open or the stream is
exhausted; otherwise return the head frame with the current index,
advance the cursor by one, and report `index / fps` (0 when
`fps ≤ 0`). -/
def VideoProcessor.read_frame (vp : VideoProcessor) :
    (Option Image × ℤ × ℚ) × VideoProcessor :=
  if vp.capture_opened then
    match vp.remaining with
    | [] => ((none, -1, 0), vp)
    | f :: rest =>
      let idx := vp.current_frame_index
      let ts := if 0 < vp.video_fps then (idx : ℚ) / vp.video_fps else 0
      ((some f, idx, ts),
       { vp with current_frame_index := idx + 1, remaining := rest })
  else ((none, -1, 0), vp)

/-- Rescaling of one match location back to full resolution
(video_processor.py lines 154-165): each coordinate is multiplied by
`scale_factor = 1.0 / frame_scale` and truncated by `int()`. -/
def rescale_location (frame_scale : ℚ) (loc : FaceLocation) : FaceLocation :=
  let k := 1 / frame_scale
  ⟨pyInt (loc.top * k), pyInt (loc.right * k),
   pyInt (loc.bottom * k), pyInt (loc.left * k)⟩

/-- The body of `VideoProcessor.process_frame_worker` for one queue
item (video_processor.py lines 140-187): optionally downscale
(`resize` is the `cv2.resize` oracle), run `process_frame`, rescale
the match locations when detection ran on a downscaled image, redraw
on the original frame, and build the queued `FrameResult`.  The
result stores the unscaled `matches` list (line 185). -/
def process_frame_worker_item (fd : FaceDetector) (frame_scale : ℚ)
    (resize : Image → ℚ → Image) (item : Image × ℤ × ℚ) : FrameResult :=
  let (frame, frame_index, timestamp) := item
  let resized_frame := if frame_scale ≠ 1 then resize frame frame_scale else frame
  let r := fd.process_frame (some resized_frame)
  let match_list := r.2.1
  let has_matches := r.2.2
  let processed_frame :=
    if has_matches ∧ frame_scale ≠ 1 then
      let adjusted := match_list.map
        (fun m => { m with location := rescale_location frame_scale m.location })
      fd.draw frame adjusted
    else if has_matches then fd.draw frame match_list
    else frame
  ⟨frame_index, timestamp, has_matches, match_list, processed_frame⟩

/-- The `DetectionEvent` recorded for an accepted result
(video_processor.py lines 280-293); `save` is the outcome of
`utils.save_image`. -/
def mkDetectionEvent (save : Image → Option String) (r : FrameResult) :
    DetectionEvent :=
  ⟨r.frame_index, r.timestamp, format_time r.timestamp,
   save r.processed_frame, r.match_list.length⟩

/-- The debounce body run on each drained `FrameResult`
(video_processor.py lines 267-295, repeated verbatim at lines
313-340): accept iff `has_matches` and the timestamp is at least
`min_time_interval` past the watermark; on acceptance bump
`matched_frames`, advance the watermark and append the event. -/
def handleResult (save : Image → Option String) (vp : VideoProcessor)
    (r : FrameResult) : VideoProcessor :=
  if r.has_matches ∧
      vp.min_time_interval ≤ r.timestamp - vp.last_detection_timestamp then
    { vp with
      matched_frames := vp.matched_frames + 1
      last_detection_timestamp := r.timestamp
      detection_results := vp.detection_results ++ [mkDetectionEvent save r] }
  else vp

/-- Draining a batch of results from the result queue in arrival
order. -/
def drainResults (save : Image → Option String) (vp : VideoProcessor)
    (rs : List FrameResult) : VideoProcessor :=
  rs.foldl (handleResult save) vp

/-- The counter reset at the top of `VideoProcessor.process_video`
(video_processor.py lines 221-230): results, counters and the capture
cursor are reset and `is_processing` is raised; the debounce watermark
`last_detection_timestamp` is NOT touched here. -/
def resetForRun (vp : VideoProcessor) : VideoProcessor :=
  { vp with
    is_processing := true
    detection_results := []
    processed_frames := 0
    matched_frames := 0
    remaining := vp.video_frames
    current_frame_index := 0 }

/-- The read/submit/drain/callback loop of `process_video`
(video_processor.py lines 249-307).  `fuel` bounds the number of
iterations (the video is finite); `sched idx` is the content the
result queue happens to hold when the frame with index `idx` was just
read (worker completion order is arbitrary); `cont idx` is the
callback verdict — `false` clears `is_processing` and breaks, as at
lines 304-307. -/
def mainLoop (sched : ℤ → List FrameResult) (cont : ℤ → Bool)
    (save : Image → Option String) : ℕ → VideoProcessor → VideoProcessor
  | 0, vp => vp
  | fuel + 1, vp =>
    if vp.is_processing then
      match vp.read_frame with
      | ((none, _, _), vp1) => vp1
      | ((some f, idx, ts), vp1) =>
        let vp2 :=
          if idx % (vp1.detection_frequency : ℤ) = 0 then
            { vp1 with
              submitted := vp1.submitted ++ [(f, idx, ts)]
              processed_frames := vp1.processed_frames + 1 }
          else vp1
        let vp3 := drainResults save vp2 (sched idx)
        if cont idx then mainLoop sched cont save fuel vp3
        else { vp3 with is_processing := false }
    else vp

/-- Model of `VideoProcessor.process_video` (video_processor.py lines
202-360): bail out untouched with no capture; otherwise reset, run the
main loop, drain what is still in the result queue after
`frame_queue.join()` (`pending`, lines 313-340), and finally clear
`is_processing` (the `finally` block, line 360). -/
def process_video (sched : ℤ → List FrameResult) (cont : ℤ → Bool)
    (save : Image → Option String) (pending : List FrameResult) (fuel : ℕ)
    (vp : VideoProcessor) : VideoProcessor :=
  if vp.capture_opened then
    let s1 := mainLoop sched cont save fuel (resetForRun vp)
    let s2 := drainResults save s1 pending
    { s2 with is_processing := false }
  else vp

/-- Model of `VideoProcessor.stop_processing` (video_processor.py lines
362-364). -/
def stop_processing (vp : VideoProcessor) : VideoProcessor :=
  { vp with is_processing := false }

/-- The shape of `app.process_video_task` (app.py lines 97-151)
relevant to reference loading: when `load_reference_face` fails the
task records an error and returns before any processor is created, so
no scan runs (`none`); otherwise the scan result is produced with the
loaded detector. -/
def process_video_task (fd : FaceDetector) (facePath : Option Image)
    (scan : FaceDetector → List DetectionEvent) :
    Option (List DetectionEvent) :=
  let load := fd.load_reference_face facePath
  if load.2 then some (scan load.1) else none

/-- The downscaled-detector coordinate assumed by the round-trip
property: the original-resolution coordinate scaled by `frame_scale`
with integer truncation. -/
def downscaledCoord (c : ℕ) (s : ℚ) : ℤ :=
  pyInt ((c : ℚ) * s)

/-- Full round trip of one coordinate: downscale by `s`, then rescale
through the worker path `rescale_location`. -/
def roundTripCoord (c : ℕ) (s : ℚ) : ℤ :=
  (rescale_location s ⟨downscaledCoord c s, 0, 0, 0⟩).top

/-- Indices a run is expected to submit: among `len` frame indices
starting at `c`, those divisible by the sampling frequency `n`. -/
def expectedIndices (n : ℕ) (c : ℤ) (len : ℕ) : List ℤ :=
  ((List.range len).map (fun k : ℕ => c + (k : ℤ))).filter
    (fun i => i % (n : ℤ) == 0)

/-- The debounce invariant: every recorded event sits at or below the
watermark, and consecutive events are separated by at least
`min_time_interval`, strictly increasing. -/
def DebounceInv (vp : VideoProcessor) : Prop :=
  (∀ e ∈ vp.detection_results,
      e.timestamp ≤ vp.last_detection_timestamp) ∧
  List.Chain'
    (fun a b => a.timestamp < b.timestamp ∧
      a.timestamp + vp.min_time_interval ≤ b.timestamp)
    vp.detection_results

/-- A fixed base state used to build the concrete runs below. -/
def vpBase : VideoProcessor where
  detection_frequency := 1
  frame_scale := 1
  min_time_interval := 2
  capture_opened := true
  video_frames := []
  remaining := []
  frame_count := 0
  video_fps := 0
  processed_frames := 0
  matched_frames := 0
  current_frame_index := 0
  detection_results := []
  is_processing := false
  last_detection_timestamp := -2
  submitted := []

/-- A concrete face location for the sample runs. -/
def locEx : FaceLocation := ⟨10, 20, 30, 5⟩

/-- A second concrete face location. -/
def locEx2 : FaceLocation := ⟨1, 2, 3, 0⟩

/-- A concrete face match used in sample frame results. -/
def mEx : FaceMatch := ⟨locEx, 1/4⟩

/-- A concrete detector: reference encoding 7, tolerance 1/2, two
faces per image with encodings 8 (distance 1/4) and 9 (distance
3/4). -/
def fdEx : FaceDetector where
  reference_face_encoding := some 7
  tolerance := 1/2
  face_locations := fun _ => [locEx, locEx2]
  face_encodings := fun _ _ => [8, 9]
  face_distance := fun _ b => if b = 8 then 1/4 else 3/4
  draw := fun img _ => img

/-- A detector whose locator finds no face in any image. -/
def fdNoFace : FaceDetector := { fdEx with face_locations := fun _ => [] }

/-- State for the `read_frame` sample: one frame left, cursor at 5. -/
def vpC10 : VideoProcessor :=
  { vpBase with video_frames := [9], remaining := [9],
                current_frame_index := 5 }

/-- A matching frame result at timestamp 0. -/
def rC9 : FrameResult := ⟨0, 0, true, [mEx], 0⟩

/-- State for the C1 sample run: one frame, interval 2. -/
def vpC1w : VideoProcessor :=
  { vpBase with video_frames := [5], remaining := [5] }

/-- Sample result schedule delivering two matching results out of
timestamp order (3 before 1/2). -/
def schedC1 : ℤ → List FrameResult :=
  fun _ => [⟨0, 3, true, [mEx], 0⟩, ⟨1, 1/2, true, [mEx], 0⟩]

/-- The debounce example of the claim: matching results at timestamps
0.5, 1.0, 2.6 and 4.9, drained in timestamp order. -/
def resultsC2 : List FrameResult :=
  [⟨15, 1/2, true, [mEx], 0⟩, ⟨30, 1, true, [mEx], 0⟩,
   ⟨78, 13/5, true, [mEx], 0⟩, ⟨147, 49/10, true, [mEx], 0⟩]

/-- State for the C3 cancellation run: two frames to read. -/
def cState3 : VideoProcessor :=
  { vpBase with video_frames := [9, 9], remaining := [9, 9] }

/-- A matching result still in flight when the C3 run is cancelled. -/
def r3 : FrameResult := ⟨0, 1/2, true, [mEx], 0⟩

/-- Empty result schedule for the C3 run. -/
def sched3 : ℤ → List FrameResult := fun _ => []

/-- Callback that cancels at the first opportunity. -/
def cont3 : ℤ → Bool := fun _ => false

/-- Save oracle that always fails. -/
def save3 : Image → Option String := fun _ => none

/-- State for the C6 run: a previous acceptance left the watermark at
timestamp 10. -/
def cState6 : VideoProcessor :=
  { vpBase with video_frames := [7], remaining := [7],
                last_detection_timestamp := 10 }

/-- A matching result at timestamp 0 for the C6 run. -/
def r6 : FrameResult := ⟨0, 0, true, [mEx], 0⟩

/-- Schedule delivering the timestamp-0 result for the C6 run. -/
def sched6 : ℤ → List FrameResult := fun _ => [r6]

/-- State for the C4 sample run: three frames, sampling every second
frame. -/
def vpC4 : VideoProcessor :=
  { vpBase with video_frames := [3, 4, 5], remaining := [3, 4, 5],
                detection_frequency := 2 }

theorem pyInt_of_nonneg {q : ℚ} (h : 0 ≤ q) : pyInt q = ⌊q⌋ := by
  rw [pyInt, if_neg (not_lt.2 h), Rat.floor_def', Rat.floor_def]

theorem handleResult_untouched (save : Image → Option String)
    (vp : VideoProcessor) (r : FrameResult) :
    (handleResult save vp r).min_time_interval = vp.min_time_interval ∧
    (handleResult save vp r).is_processing = vp.is_processing ∧
    (handleResult save vp r).submitted = vp.submitted ∧
    (handleResult save vp r).processed_frames = vp.processed_frames ∧
    (handleResult save vp r).current_frame_index = vp.current_frame_index ∧
    (handleResult save vp r).remaining = vp.remaining ∧
    (handleResult save vp r).capture_opened = vp.capture_opened ∧
    (handleResult save vp r).detection_frequency = vp.detection_frequency ∧
    (handleResult save vp r).video_fps = vp.video_fps := by
  unfold handleResult
  split <;> simp

theorem drainResults_untouched (save : Image → Option String)
    (rs : List FrameResult) : ∀ (vp : VideoProcessor),
    (drainResults save vp rs).min_time_interval = vp.min_time_interval ∧
    (drainResults save vp rs).is_processing = vp.is_processing ∧
    (drainResults save vp rs).submitted = vp.submitted ∧
    (drainResults save vp rs).processed_frames = vp.processed_frames ∧
    (drainResults save vp rs).current_frame_index = vp.current_frame_index ∧
    (drainResults save vp rs).remaining = vp.remaining ∧
    (drainResults save vp rs).capture_opened = vp.capture_opened ∧
    (drainResults save vp rs).detection_frequency = vp.detection_frequency ∧
    (drainResults save vp rs).video_fps = vp.video_fps := by
  induction rs with
  | nil => intro vp; exact ⟨rfl, rfl, rfl, rfl, rfl, rfl, rfl, rfl, rfl⟩
  | cons r rs ih =>
    intro vp
    obtain ⟨a1, a2, a3, a4, a5, a6, a7, a8, a9⟩ :=
      handleResult_untouched save vp r
    obtain ⟨b1, b2, b3, b4, b5, b6, b7, b8, b9⟩ := ih (handleResult save vp r)
    exact ⟨b1.trans a1, b2.trans a2, b3.trans a3, b4.trans a4, b5.trans a5,
      b6.trans a6, b7.trans a7, b8.trans a8, b9.trans a9⟩

/-- C10: `read_frame` is total at the public interface: with no open
capture or after the stream ends it returns the sentinel
`(none, -1, 0)` and leaves the state unchanged; on success it returns
the head frame at the current index with timestamp `index / fps`
(0 when `fps ≤ 0`) and advances the cursor by exactly one. -/
theorem C10_read_frame_total (vp : VideoProcessor) :
    (vp.capture_opened = false → vp.read_frame = ((none, -1, 0), vp)) ∧
    (vp.remaining = [] → vp.read_frame = ((none, -1, 0), vp)) ∧
    (∀ f rest, vp.capture_opened = true → vp.remaining = f :: rest →
      vp.read_frame =
        ((some f, vp.current_frame_index,
          if 0 < vp.video_fps then (vp.current_frame_index : ℚ) / vp.video_fps
          else 0),
         { vp with current_frame_index := vp.current_frame_index + 1,
                   remaining := rest })) := by
  refine ⟨?_, ?_, ?_⟩
  · intro h
    simp [VideoProcessor.read_frame, h]
  · intro h
    by_cases hc : vp.capture_opened <;> simp [VideoProcessor.read_frame, h, hc]
  · intro f rest hc hr
    simp [VideoProcessor.read_frame, hc, hr]

/-- Witness for C10 at a concrete state: one remaining frame, cursor
5, `fps = 0`. -/
theorem C10_read_frame_total_witness :
    vpC10.read_frame =
      ((some 9, 5, 0),
       { vpC10 with current_frame_index := 6, remaining := [] }) := by
  have h := (C10_read_frame_total vpC10).2.2 9 [] rfl rfl
  rw [h]
  norm_num [vpC10, vpBase]

/-- C7: loading the reference profile fails — returns `false`, and
`process_video_task` then runs no scan — exactly when the image cannot
be decoded or zero faces are detected (given the library guarantee
that the encoder answers nonempty lists of faces); with several faces
the load succeeds and the FIRST detected face's encoding is stored. -/
theorem C7_reference_load (fd : FaceDetector) :
    (fd.load_reference_face none = (fd, false)) ∧
    (∀ img, fd.face_locations img = [] →
      fd.load_reference_face (some img) = (fd, false)) ∧
    (∀ img,
      (∀ locs, locs ≠ [] → fd.face_encodings img locs ≠ []) →
      ((fd.load_reference_face (some img)).2 = false ↔
        fd.face_locations img = [])) ∧
    (∀ img l ls e es, fd.face_locations img = l :: ls →
      fd.face_encodings img (l :: ls) = e :: es →
      fd.load_reference_face (some img) =
        ({ fd with reference_face_encoding := some e }, true)) ∧
    (∀ facePath scan, (fd.load_reference_face facePath).2 = false →
      process_video_task fd facePath scan = none) := by
  refine ⟨rfl, ?_, ?_, ?_, ?_⟩
  · intro img h
    simp [FaceDetector.load_reference_face, h]
  · intro img henc
    constructor
    · intro h
      by_contra hne
      rcases List.exists_cons_of_ne_nil hne with ⟨l, ls, hl⟩
      rcases List.exists_cons_of_ne_nil (henc (l :: ls) (List.cons_ne_nil l ls))
        with ⟨e, es, he⟩
      simp [FaceDetector.load_reference_face, hl, he] at h
    · intro h
      simp [FaceDetector.load_reference_face, h]
  · intro img l ls e es hl he
    simp [FaceDetector.load_reference_face, hl, he]
  · intro facePath scan h
    simp [process_video_task, h]

/-- Witness for C7: the no-face detector fails on image 0 and starts
no scan, while `fdEx` (two faces) stores the first encoding 8. -/
theorem C7_reference_load_witness :
    fdNoFace.load_reference_face (some 0) = (fdNoFace, false) ∧
    process_video_task fdNoFace (some 0) (fun _ => []) = none ∧
    fdEx.load_reference_face (some 0) =
      ({ fdEx with reference_face_encoding := some 8 }, true) := by
  refine ⟨(C7_reference_load fdNoFace).2.1 0 rfl, ?_, ?_⟩
  · exact (C7_reference_load fdNoFace).2.2.2.2 (some 0) (fun _ => [])
      (by rw [(C7_reference_load fdNoFace).2.1 0 rfl])
  · exact (C7_reference_load fdEx).2.2.2.1 0 locEx [locEx2] 8 [9] rfl rfl

/-- C9: when evidence persistence fails (`save` returns `none`), an
accepted detection is still recorded — index, timestamp, formatted
time and match count intact, evidence reference `none` — and the
drain continues with the remaining results. -/
theorem C9_event_without_evidence (save : Image → Option String)
    (vp : VideoProcessor) (r : FrameResult)
    (hm : r.has_matches = true)
    (ht : vp.min_time_interval ≤ r.timestamp - vp.last_detection_timestamp)
    (hs : save r.processed_frame = none) :
    (handleResult save vp r).detection_results =
      vp.detection_results ++
        [⟨r.frame_index, r.timestamp, format_time r.timestamp, none,
          r.match_list.length⟩] ∧
    (handleResult save vp r).is_processing = vp.is_processing ∧
    ∀ rs, drainResults save vp (r :: rs) =
      drainResults save (handleResult save vp r) rs := by
  refine ⟨?_, (handleResult_untouched save vp r).2.1, fun rs => rfl⟩
  unfold handleResult
  rw [if_pos ⟨hm, ht⟩]
  simp [mkDetectionEvent, hs]

/-- Witness for C9 at a concrete accepted result whose save fails. -/
theorem C9_event_without_evidence_witness :
    (handleResult (fun _ => none) vpBase rC9).detection_results =
      vpBase.detection_results ++
        [⟨rC9.frame_index, rC9.timestamp, format_time rC9.timestamp, none,
          rC9.match_list.length⟩] :=
  (C9_event_without_evidence (fun _ => none) vpBase rC9 rfl
    (by norm_num [vpBase, rC9]) rfl).1

theorem foldl_append_filter {α β : Type} (q : α → Prop) [DecidablePred q]
    (g : α → β) :
    ∀ (l : List α) (acc : List β),
      l.foldl (fun acc a => if q a then acc ++ [g a] else acc) acc
        = acc ++ (l.filter (fun a => decide (q a))).map g := by
  intro l
  induction l with
  | nil => intro acc; simp
  | cons a t ih =>
    intro acc
    by_cases h : q a <;> simp [List.filter_cons, h, ih]

/-- C5: with a loaded reference profile, `match_faces` returns exactly
the detected faces whose distance to the reference encoding is
strictly below the threshold, in detector order with their distances;
it returns `[]` (not an error) when the frame is empty, has no faces,
or no face is within threshold. -/
theorem C5_match_faces_characterization (fd : FaceDetector) (img : Image)
    (ref : Encoding) (href : fd.reference_face_encoding = some ref) :
    fd.match_faces (some img) =
      (((fd.face_encodings img (fd.face_locations img)).zip
          (fd.face_locations img)).filter
        (fun p => decide (fd.face_distance ref p.1 < fd.tolerance))).map
        (fun p => ⟨p.2, fd.face_distance ref p.1⟩) ∧
    (fd.face_locations img = [] → fd.match_faces (some img) = []) ∧
    ((∀ p ∈ (fd.face_encodings img (fd.face_locations img)).zip
        (fd.face_locations img),
        ¬ fd.face_distance ref p.1 < fd.tolerance) →
      fd.match_faces (some img) = []) ∧
    fd.match_faces none = [] := by
  have main : fd.match_faces (some img) =
      (((fd.face_encodings img (fd.face_locations img)).zip
          (fd.face_locations img)).filter
        (fun p => decide (fd.face_distance ref p.1 < fd.tolerance))).map
        (fun p => ⟨p.2, fd.face_distance ref p.1⟩) := by
    rw [FaceDetector.match_faces, href]
    simp only [FaceDetector.detect_faces]
    by_cases hloc : (fd.face_locations img).isEmpty
    · rw [List.isEmpty_iff] at hloc
      simp [hloc]
    · rw [if_neg hloc]
      by_cases henc : (fd.face_encodings img (fd.face_locations img)).isEmpty
      · rw [List.isEmpty_iff] at henc
        simp [henc]
      · rw [if_neg henc]
        exact foldl_append_filter
          (fun p : Encoding × FaceLocation =>
            fd.face_distance ref p.1 < fd.tolerance)
          (fun p : Encoding × FaceLocation =>
            (⟨p.2, fd.face_distance ref p.1⟩ : FaceMatch)) _ []
  refine ⟨main, ?_, ?_, ?_⟩
  · intro h
    rw [main, h]
    simp
  · intro h
    rw [main, List.filter_eq_nil_iff.mpr ?_, List.map_nil]
    intro p hp
    simpa using h p hp
  · rw [FaceDetector.match_faces, href]

/-- Witness for C5: `fdEx` has faces with distances 1/4 and 3/4
against tolerance 1/2, so exactly the first face is returned. -/
theorem C5_match_faces_characterization_witness :
    fdEx.match_faces (some 0) = [⟨locEx, 1/4⟩] := by
  rw [(C5_match_faces_characterization fdEx 0 7 rfl).1]
  norm_num [fdEx]

/-- Counterexample to C8: with `frame_scale = 1/10` a coordinate 19
downscales to 1 and rescales to 10, an error of 9 pixels — far outside
the claimed ±1 tolerance. -/
theorem C8_roundtrip_counterexample :
    roundTripCoord 19 (1/10) = 10 ∧
    ¬ ((19 : ℤ) - roundTripCoord 19 (1/10) ≤ 1) := by
  have h1 : downscaledCoord 19 (1/10) = 1 := by
    rw [downscaledCoord, pyInt_of_nonneg (by norm_num),
      show ((19 : ℕ) : ℚ) * (1/10) = 19/10 by norm_num, Int.floor_eq_iff]
    norm_num
  have h2 : roundTripCoord 19 (1/10) = 10 := by
    rw [roundTripCoord, rescale_location]
    simp only [h1]
    rw [pyInt_of_nonneg (by norm_num),
      show ((1 : ℤ) : ℚ) * (1 / (1/10 : ℚ)) = ((10 : ℤ) : ℚ) by norm_num,
      Int.floor_intCast]
  exact ⟨h2, by rw [h2]; norm_num⟩

/-- C8 as amended: the rescaled coordinate never exceeds the original
and falls short of it by strictly less than `1/s + 1` pixels; for the
default `frame_scale = 1/2` this gives the claimed ±1 pixel
round-trip tolerance, but for general `s ∈ (0,1]` the error can reach
`⌈1/s⌉ - 1` pixels. -/
theorem C8_roundtrip_bounds (c : ℕ) (s : ℚ) (hs0 : 0 < s) (_hs1 : s ≤ 1) :
    roundTripCoord c s ≤ (c : ℤ) ∧
    (c : ℚ) < (roundTripCoord c s : ℚ) + 1 / s + 1 ∧
    (s = 1/2 → (c : ℤ) - roundTripCoord c s ≤ 1) := by
  have hcs : (0 : ℚ) ≤ (c : ℚ) * s := mul_nonneg (Nat.cast_nonneg c) hs0.le
  have hd : downscaledCoord c s = ⌊(c : ℚ) * s⌋ := by
    rw [downscaledCoord, pyInt_of_nonneg hcs]
  have hd0 : (0 : ℤ) ≤ ⌊(c : ℚ) * s⌋ := Int.floor_nonneg.2 hcs
  have hrt : roundTripCoord c s = ⌊(⌊(c : ℚ) * s⌋ : ℚ) * (1/s)⌋ := by
    rw [roundTripCoord, rescale_location]
    simp only [hd]
    exact pyInt_of_nonneg
      (mul_nonneg (by exact_mod_cast hd0) (by positivity))
  have hfl : ((⌊(c : ℚ) * s⌋ : ℚ)) ≤ (c : ℚ) * s := Int.floor_le _
  have hfu : (c : ℚ) * s < (⌊(c : ℚ) * s⌋ : ℚ) + 1 := Int.lt_floor_add_one _
  refine ⟨?_, ?_, ?_⟩
  · rw [hrt]
    have h2 : (⌊(c : ℚ) * s⌋ : ℚ) * (1/s) ≤ (c : ℚ) := by
      rw [mul_one_div, div_le_iff₀ hs0]
      exact hfl
    calc ⌊(⌊(c : ℚ) * s⌋ : ℚ) * (1/s)⌋ ≤ ⌊((c : ℕ) : ℚ)⌋ :=
          Int.floor_le_floor h2
      _ = (c : ℤ) := Int.floor_natCast c
  · rw [hrt]
    have h4 : (c : ℚ) < ((⌊(c : ℚ) * s⌋ : ℚ) + 1) * (1/s) := by
      rw [mul_one_div, lt_div_iff₀ hs0]
      exact hfu
    have h5 : (⌊(c : ℚ) * s⌋ : ℚ) * (1/s) <
        (⌊(⌊(c : ℚ) * s⌋ : ℚ) * (1/s)⌋ : ℚ) + 1 := Int.lt_floor_add_one _
    have h6 : ((⌊(c : ℚ) * s⌋ : ℚ) + 1) * (1/s) =
        (⌊(c : ℚ) * s⌋ : ℚ) * (1/s) + 1/s := by ring
    linarith
  · intro hhalf
    subst hhalf
    rw [hrt]
    rw [show ((⌊(c : ℚ) * (1/2)⌋ : ℚ)) * (1/(1/2 : ℚ)) =
        ((2 * ⌊(c : ℚ) * (1/2)⌋ : ℤ) : ℚ) by push_cast; ring,
      Int.floor_intCast]
    have h7 : (c : ℚ) < 2 * (⌊(c : ℚ) * (1/2)⌋ : ℚ) + 2 := by linarith
    have h8 : (c : ℤ) < 2 * ⌊(c : ℚ) * (1/2)⌋ + 2 := by exact_mod_cast h7
    omega

/-- Witness for C8's amended bounds at `c = 5`, `s = 1/2`. -/
theorem C8_roundtrip_bounds_witness :
    roundTripCoord 5 (1/2) ≤ ((5 : ℕ) : ℤ) ∧
    ((5 : ℕ) : ℚ) < (roundTripCoord 5 (1/2) : ℚ) + 1/(1/2 : ℚ) + 1 ∧
    ((5 : ℕ) : ℤ) - roundTripCoord 5 (1/2) ≤ 1 :=
  ⟨(C8_roundtrip_bounds 5 (1/2) (by norm_num) (by norm_num)).1,
   (C8_roundtrip_bounds 5 (1/2) (by norm_num) (by norm_num)).2.1,
   (C8_roundtrip_bounds 5 (1/2) (by norm_num) (by norm_num)).2.2 rfl⟩

theorem DebounceInv_congr {s t : VideoProcessor}
    (h1 : t.detection_results = s.detection_results)
    (h2 : t.last_detection_timestamp = s.last_detection_timestamp)
    (h3 : t.min_time_interval = s.min_time_interval)
    (h : DebounceInv s) : DebounceInv t := by
  unfold DebounceInv at *
  rw [h1, h2, h3]
  exact h

theorem DebounceInv_handleResult (save : Image → Option String)
    (vp : VideoProcessor) (r : FrameResult)
    (hI : 0 < vp.min_time_interval) (h : DebounceInv vp) :
    DebounceInv (handleResult save vp r) := by
  obtain ⟨hub, hch⟩ := h
  unfold handleResult
  split
  case isTrue hc =>
    have hwm : vp.last_detection_timestamp + vp.min_time_interval ≤
        r.timestamp := by linarith [hc.2]
    constructor
    · intro e he
      simp only at he ⊢
      rcases List.mem_append.1 he with hold | hnew
      · have := hub e hold
        linarith
      · rcases List.mem_singleton.1 hnew with rfl
        simp [mkDetectionEvent]
    · simp only
      refine List.chain'_append.2 ⟨hch, List.chain'_singleton _, ?_⟩
      intro x hx y hy
      rcases List.mem_singleton.1 (by simpa using hy) with rfl
      obtain ⟨hne, hxl⟩ := List.mem_getLast?_eq_getLast hx
      have hxm : x ∈ vp.detection_results := hxl ▸ List.getLast_mem hne
      have hxu := hub x hxm
      constructor
      · simp only [mkDetectionEvent]
        linarith
      · simp only [mkDetectionEvent]
        linarith
  case isFalse => exact ⟨hub, hch⟩

theorem DebounceInv_drainResults (save : Image → Option String)
    (rs : List FrameResult) : ∀ (vp : VideoProcessor),
    0 < vp.min_time_interval → DebounceInv vp →
    DebounceInv (drainResults save vp rs) := by
  induction rs with
  | nil => intro vp _ h; exact h
  | cons r rs ih =>
    intro vp hI h
    have hI2 : 0 < (handleResult save vp r).min_time_interval := by
      rw [(handleResult_untouched save vp r).1]; exact hI
    exact ih (handleResult save vp r) hI2
      (DebounceInv_handleResult save vp r hI h)

theorem read_frame_untouched (vp : VideoProcessor) :
    (vp.read_frame).2.min_time_interval = vp.min_time_interval ∧
    (vp.read_frame).2.detection_results = vp.detection_results ∧
    (vp.read_frame).2.last_detection_timestamp =
      vp.last_detection_timestamp ∧
    (vp.read_frame).2.is_processing = vp.is_processing ∧
    (vp.read_frame).2.capture_opened = vp.capture_opened ∧
    (vp.read_frame).2.detection_frequency = vp.detection_frequency ∧
    (vp.read_frame).2.submitted = vp.submitted ∧
    (vp.read_frame).2.processed_frames = vp.processed_frames ∧
    (vp.read_frame).2.video_fps = vp.video_fps := by
  unfold VideoProcessor.read_frame
  by_cases h : vp.capture_opened <;> simp only [h] <;>
    cases vp.remaining <;> simp [h]

theorem DebounceInv_sample (vp : VideoProcessor) (f : Image) (idx : ℤ)
    (ts : ℚ) (h : DebounceInv vp) :
    DebounceInv (if idx % (vp.detection_frequency : ℤ) = 0 then
      { vp with submitted := vp.submitted ++ [(f, idx, ts)],
                processed_frames := vp.processed_frames + 1 }
    else vp) := by
  split
  · exact DebounceInv_congr rfl rfl rfl h
  · exact h

theorem DebounceInv_mainLoop (sched : ℤ → List FrameResult)
    (cont : ℤ → Bool) (save : Image → Option String) :
    ∀ (fuel : ℕ) (vp : VideoProcessor), 0 < vp.min_time_interval →
    DebounceInv vp → DebounceInv (mainLoop sched cont save fuel vp) := by
  intro fuel
  induction fuel with
  | zero => intro vp _ h; exact h
  | succ fuel ih =>
    intro vp hI h
    rw [mainLoop]
    by_cases hp : vp.is_processing
    · simp only [hp, if_true]
      obtain ⟨u1, u2, u3, u4, u5, u6, u7, u8, u9⟩ := read_frame_untouched vp
      rcases hrf : vp.read_frame with ⟨⟨fr, idx, ts⟩, vp1⟩
      rw [hrf] at u1 u2 u3
      have h1 : DebounceInv vp1 := DebounceInv_congr u2 u3 u1 h
      have hI1 : 0 < vp1.min_time_interval := u1 ▸ hI
      cases fr with
      | none => exact h1
      | some f =>
        simp only
        set vp2 := if idx % (vp1.detection_frequency : ℤ) = 0 then
          { vp1 with submitted := vp1.submitted ++ [(f, idx, ts)],
                     processed_frames := vp1.processed_frames + 1 }
          else vp1 with hvp2
        have h2 : DebounceInv vp2 := DebounceInv_sample vp1 f idx ts h1
        have hI2 : 0 < vp2.min_time_interval := by
          rw [hvp2]; split <;> exact hI1
        have h3 : DebounceInv (drainResults save vp2 (sched idx)) :=
          DebounceInv_drainResults save (sched idx) vp2 hI2 h2
        have hI3 : 0 < (drainResults save vp2 (sched idx)).min_time_interval := by
          rw [(drainResults_untouched save (sched idx) vp2).1]; exact hI2
        by_cases hcont : cont idx
        · simp only [hcont, if_true]
          exact ih _ hI3 h3
        · simp only [hcont, if_false]
          exact DebounceInv_congr rfl rfl rfl h3
    · simp only [hp, if_false]
      exact h

theorem mainLoop_untouched (sched : ℤ → List FrameResult)
    (cont : ℤ → Bool) (save : Image → Option String) :
    ∀ (fuel : ℕ) (vp : VideoProcessor),
    (mainLoop sched cont save fuel vp).min_time_interval =
      vp.min_time_interval ∧
    (mainLoop sched cont save fuel vp).capture_opened =
      vp.capture_opened ∧
    (mainLoop sched cont save fuel vp).detection_frequency =
      vp.detection_frequency ∧
    (mainLoop sched cont save fuel vp).video_fps = vp.video_fps := by
  intro fuel
  induction fuel with
  | zero => intro vp; exact ⟨rfl, rfl, rfl, rfl⟩
  | succ fuel ih =>
    intro vp
    rw [mainLoop]
    by_cases hp : vp.is_processing
    · simp only [hp, if_true]
      obtain ⟨u1, _, _, _, u5, u6, _, _, u9⟩ := read_frame_untouched vp
      rcases hrf : vp.read_frame with ⟨⟨fr, idx, ts⟩, vp1⟩
      rw [hrf] at u1 u5 u6 u9
      cases fr with
      | none => exact ⟨u1, u5, u6, u9⟩
      | some f =>
        simp only
        set vp2 := if idx % (vp1.detection_frequency : ℤ) = 0 then
          { vp1 with submitted := vp1.submitted ++ [(f, idx, ts)],
                     processed_frames := vp1.processed_frames + 1 }
          else vp1 with hvp2
        have h2 : vp2.min_time_interval = vp1.min_time_interval ∧
            vp2.capture_opened = vp1.capture_opened ∧
            vp2.detection_frequency = vp1.detection_frequency ∧
            vp2.video_fps = vp1.video_fps := by
          rw [hvp2]; split <;> exact ⟨rfl, rfl, rfl, rfl⟩
        obtain ⟨d1, _, d3, d4, _, _, _, d8, d9⟩ :=
          drainResults_untouched save (sched idx) vp2
        by_cases hcont : cont idx
        · simp only [hcont, if_true]
          obtain ⟨m1, m2, m3, m4⟩ := ih (drainResults save vp2 (sched idx))
          refine ⟨?_, ?_, ?_, ?_⟩
          · rw [m1, d1, h2.1, u1]
          · rw [m2]
            have d7 := (drainResults_untouched save (sched idx) vp2).2.2.2.2.2.2.1
            rw [d7, h2.2.1, u5]
          · rw [m3, d8, h2.2.2.1, u6]
          · rw [m4, d9, h2.2.2.2, u9]
        · simp only [hcont, if_false]
          refine ⟨?_, ?_, ?_, ?_⟩
          · show (drainResults save vp2 (sched idx)).min_time_interval = _
            rw [d1, h2.1, u1]
          · show (drainResults save vp2 (sched idx)).capture_opened = _
            have d7 := (drainResults_untouched save (sched idx) vp2).2.2.2.2.2.2.1
            rw [d7, h2.2.1, u5]
          · show (drainResults save vp2 (sched idx)).detection_frequency = _
            rw [d8, h2.2.2.1, u6]
          · show (drainResults save vp2 (sched idx)).video_fps = _
            rw [d9, h2.2.2.2, u9]
    · simp only [hp, if_false]
      exact ⟨rfl, rfl, rfl, rfl⟩

/-- C1: in every completed run, over arbitrary result-queue drain
orders, the list of accepted DetectionEvents (in append order) has
strictly increasing timestamps and every two consecutive events are
at least `min_time_interval` apart: acceptance always compares
against the watermark of the last accepted event, which only ever
advances. -/
theorem C1_accepted_events_debounced (sched : ℤ → List FrameResult)
    (cont : ℤ → Bool) (save : Image → Option String)
    (pending : List FrameResult) (fuel : ℕ) (vp : VideoProcessor)
    (hI : 0 < vp.min_time_interval) (hopen : vp.capture_opened = true) :
    List.Chain'
      (fun a b => a.timestamp < b.timestamp ∧
        a.timestamp + vp.min_time_interval ≤ b.timestamp)
      (process_video sched cont save pending fuel vp).detection_results := by
  unfold process_video
  rw [if_pos hopen]
  simp only
  have h0 : DebounceInv (resetForRun vp) := by
    refine ⟨?_, ?_⟩
    · intro e he
      simp [resetForRun] at he
    · show List.Chain' _ (resetForRun vp).detection_results
      simp [resetForRun]
  have hI0 : 0 < (resetForRun vp).min_time_interval := hI
  have h1 : DebounceInv (mainLoop sched cont save fuel (resetForRun vp)) :=
    DebounceInv_mainLoop sched cont save fuel (resetForRun vp) hI0 h0
  have e1 : (mainLoop sched cont save fuel (resetForRun vp)).min_time_interval
      = vp.min_time_interval :=
    (mainLoop_untouched sched cont save fuel (resetForRun vp)).1
  have hI1 : 0 < (mainLoop sched cont save fuel
      (resetForRun vp)).min_time_interval := by rw [e1]; exact hI
  have h2 : DebounceInv (drainResults save
      (mainLoop sched cont save fuel (resetForRun vp)) pending) :=
    DebounceInv_drainResults save pending _ hI1 h1
  have e2 : (drainResults save
      (mainLoop sched cont save fuel (resetForRun vp))
      pending).min_time_interval = vp.min_time_interval := by
    rw [(drainResults_untouched save pending _).1, e1]
  have hch := h2.2
  rw [e2] at hch
  exact hch

/-- Witness for C1 at a concrete run whose queue delivers matching
results out of timestamp order. -/
theorem C1_accepted_events_debounced_witness :
    List.Chain'
      (fun a b => a.timestamp < b.timestamp ∧
        a.timestamp + vpC1w.min_time_interval ≤ b.timestamp)
      ((process_video schedC1 (fun _ => true) (fun _ => none) [] 2
        vpC1w).detection_results) :=
  C1_accepted_events_debounced schedC1 (fun _ => true) (fun _ => none) [] 2
    vpC1w (by norm_num [vpC1w, vpBase]) rfl

theorem process_frame_flag (fd : FaceDetector) (frame : Option Image) :
    (fd.process_frame frame).2.2 = true ↔
    (fd.process_frame frame).2.1 ≠ [] := by
  unfold FaceDetector.process_frame
  cases fd.reference_face_encoding with
  | none => simp
  | some ref =>
    cases frame with
    | none => simp
    | some img =>
      by_cases h : (fd.match_faces (some img)).isEmpty
      · rw [List.isEmpty_iff] at h
        simp [h]
      · rw [List.isEmpty_iff] at h
        simp [h]

/-- C2: a drained result is accepted — the event appended, the
watermark advanced, the evidence saved — exactly when its worker found
a non-empty match list (`has_matches` is set by the worker iff
`match_list` is non-empty) and its timestamp is at least
`min_time_interval` past the watermark; on the claim's example
(interval 2, matches at 0.5, 1.0, 2.6, 4.9 drained in order) exactly
0.5, 2.6 and 4.9 are accepted. -/
theorem C2_accept_iff :
    (∀ (fd : FaceDetector) (scale : ℚ) (resize : Image → ℚ → Image)
        (item : Image × ℤ × ℚ),
      ((process_frame_worker_item fd scale resize item).has_matches = true ↔
        (process_frame_worker_item fd scale resize item).match_list ≠ [])) ∧
    (∀ (save : Image → Option String) (vp : VideoProcessor)
        (r : FrameResult),
      (handleResult save vp r =
        { vp with matched_frames := vp.matched_frames + 1,
                  last_detection_timestamp := r.timestamp,
                  detection_results :=
                    vp.detection_results ++ [mkDetectionEvent save r] } ↔
        (r.has_matches = true ∧
          vp.min_time_interval ≤ r.timestamp - vp.last_detection_timestamp)) ∧
      (¬ (r.has_matches = true ∧
          vp.min_time_interval ≤ r.timestamp - vp.last_detection_timestamp) →
        handleResult save vp r = vp)) ∧
    ((drainResults (fun _ => none) vpBase resultsC2).detection_results.map
        DetectionEvent.timestamp = [1/2, 13/5, 49/10]) := by
  refine ⟨?_, ?_, ?_⟩
  · intro fd scale resize item
    obtain ⟨frame, idx, ts⟩ := item
    simpa [process_frame_worker_item] using process_frame_flag fd
      (some (if scale ≠ 1 then resize frame scale else frame))
  · intro save vp r
    constructor
    · constructor
      · intro h
        by_contra hn
        rw [handleResult, if_neg hn] at h
        have hm := congrArg VideoProcessor.matched_frames h
        simp at hm
      · intro hc
        rw [handleResult, if_pos hc]
    · intro hn
      rw [handleResult, if_neg hn]
  · norm_num [drainResults, resultsC2, vpBase, handleResult,
      mkDetectionEvent, List.foldl]

/-- Witness for C2: a result with an empty match list is rejected. -/
theorem C2_accept_iff_witness :
    handleResult (fun _ => none) vpBase ⟨30, 1, false, [], 0⟩ = vpBase :=
  (C2_accept_iff.2.1 (fun _ => none) vpBase ⟨30, 1, false, [], 0⟩).2
    (by norm_num)

/-- Counterexample to C3: the progress callback cancels the run, so
`is_processing` goes false with an empty result list — yet the
post-loop drain of the result queue (video_processor.py lines
313-340) still appends a DetectionEvent for a result produced before
cancellation. -/
theorem C3_counterexample :
    (mainLoop sched3 cont3 save3 2 (resetForRun cState3)).is_processing
        = false ∧
    (mainLoop sched3 cont3 save3 2 (resetForRun cState3)).detection_results
        = [] ∧
    (process_video sched3 cont3 save3 [r3] 2
        cState3).detection_results.length = 1 := by
  norm_num [process_video, mainLoop, resetForRun, cState3, vpBase,
    VideoProcessor.read_frame, drainResults, handleResult, mkDetectionEvent,
    sched3, cont3, save3, r3, List.foldl]

/-- C3 as amended: once `is_processing` is false the main loop itself
reads, submits and appends nothing further (and `stop_processing`
clears the flag); however results already in the result queue are
still drained after the loop exits, so the run's event list may grow
after the flag went false and is final only when `process_video`
returns. -/
theorem C3_no_loop_after_stop (sched : ℤ → List FrameResult)
    (cont : ℤ → Bool) (save : Image → Option String) (fuel : ℕ)
    (vp : VideoProcessor) (h : vp.is_processing = false) :
    mainLoop sched cont save fuel vp = vp ∧
    (stop_processing vp).is_processing = false := by
  refine ⟨?_, rfl⟩
  cases fuel with
  | zero => rfl
  | succ fuel => rw [mainLoop, if_neg (by simp [h])]

/-- Witness for C3's amended statement at a stopped state. -/
theorem C3_no_loop_after_stop_witness :
    mainLoop sched3 cont3 save3 5 (stop_processing vpBase) =
      stop_processing vpBase :=
  (C3_no_loop_after_stop sched3 cont3 save3 5 (stop_processing vpBase)
    rfl).1

/-- Counterexample to C6: `process_video` does not reset the debounce
watermark — here a previous acceptance left it at 10, a fresh
`process_video` call keeps it there, and the match at timestamp 0 is
rejected, while with the watermark at `-min_time_interval` (as the
claim demands) the same result would be accepted. -/
theorem C6_counterexample :
    (resetForRun cState6).last_detection_timestamp = 10 ∧
    -cState6.min_time_interval = -2 ∧
    ((10 : ℚ) ≠ -2) ∧
    (process_video sched6 (fun _ => true) (fun _ => none) [] 2
        cState6).detection_results = [] ∧
    (handleResult (fun _ => none)
        { resetForRun cState6 with
          last_detection_timestamp := -cState6.min_time_interval }
        r6).detection_results ≠ [] := by
  refine ⟨rfl, rfl, by norm_num, ?_, ?_⟩
  · norm_num [process_video, mainLoop, resetForRun, cState6, vpBase,
      VideoProcessor.read_frame, drainResults, handleResult,
      mkDetectionEvent, sched6, r6, List.foldl]
  · norm_num [handleResult, resetForRun, cState6, vpBase,
      mkDetectionEvent, r6]

/-- C6 as amended: `process_video` resets the counters, the result
list and the capture cursor but leaves the debounce watermark as it
was; the watermark is set to `-min_time_interval` by `load_video`, so
a match at timestamp 0 is accepted on the first `process_video` after
`load_video` (but not necessarily on later calls). -/
theorem C6_reset_semantics (vp : VideoProcessor) (frames : List Image)
    (fc : ℕ) (fps : ℚ) (save : Image → Option String) (r : FrameResult)
    (hm : r.has_matches = true) (ht : r.timestamp = 0) :
    (resetForRun vp).processed_frames = 0 ∧
    (resetForRun vp).matched_frames = 0 ∧
    (resetForRun vp).detection_results = [] ∧
    (resetForRun vp).current_frame_index = 0 ∧
    (resetForRun vp).is_processing = true ∧
    (resetForRun vp).last_detection_timestamp =
      vp.last_detection_timestamp ∧
    (vp.load_video frames fc fps).last_detection_timestamp =
      -vp.min_time_interval ∧
    (handleResult save (resetForRun (vp.load_video frames fc fps))
        r).detection_results.length = 1 := by
  refine ⟨rfl, rfl, rfl, rfl, rfl, rfl, rfl, ?_⟩
  have hcond : r.has_matches = true ∧
      (resetForRun (vp.load_video frames fc fps)).min_time_interval ≤
        r.timestamp -
          (resetForRun (vp.load_video frames fc
            fps)).last_detection_timestamp := by
    refine ⟨hm, ?_⟩
    rw [ht]
    show vp.min_time_interval ≤ 0 - - vp.min_time_interval
    norm_num
  rw [handleResult, if_pos hcond]
  simp [resetForRun, VideoProcessor.load_video]

/-- Witness for C6's amended statement: after `load_video`, the first
run accepts a match at timestamp 0. -/
theorem C6_reset_semantics_witness :
    (handleResult (fun _ => none) (resetForRun (vpBase.load_video [7] 1 0))
        rC9).detection_results.length = 1 :=
  (C6_reset_semantics vpBase [7] 1 0 (fun _ => none) rC9 rfl
    rfl).2.2.2.2.2.2.2

theorem read_frame_none_of_nil (vp : VideoProcessor)
    (h : vp.remaining = []) : vp.read_frame = ((none, -1, 0), vp) := by
  unfold VideoProcessor.read_frame
  by_cases hc : vp.capture_opened <;> simp [h, hc]

theorem read_frame_cons (vp : VideoProcessor) (f : Image)
    (rest : List Image) (hop : vp.capture_opened = true)
    (h : vp.remaining = f :: rest) :
    vp.read_frame =
      ((some f, vp.current_frame_index,
        if 0 < vp.video_fps then (vp.current_frame_index : ℚ) / vp.video_fps
        else 0),
       { vp with current_frame_index := vp.current_frame_index + 1,
                 remaining := rest }) := by
  unfold VideoProcessor.read_frame
  simp [hop, h]

theorem expectedIndices_zero (n : ℕ) (c : ℤ) :
    expectedIndices n c 0 = [] := rfl

theorem expectedIndices_succ (n : ℕ) (c : ℤ) (len : ℕ) :
    expectedIndices n c (len + 1) =
      (if c % (n : ℤ) = 0 then [c] else []) ++
        expectedIndices n (c + 1) len := by
  unfold expectedIndices
  rw [List.range_succ_eq_map, List.map_cons, List.filter_cons,
    List.map_map]
  have hmap : ((fun k : ℕ => c + (k : ℤ)) ∘ Nat.succ) =
      (fun k : ℕ => (c + 1) + (k : ℤ)) := by
    funext k
    simp only [Function.comp]
    push_cast
    ring
  rw [hmap]
  by_cases h : c % (n : ℤ) = 0 <;> simp [h]

theorem mainLoop_sampling (sched : ℤ → List FrameResult)
    (save : Image → Option String) (n : ℕ) :
    ∀ (frames : List Image) (fuel : ℕ) (vp : VideoProcessor),
    vp.is_processing = true → vp.capture_opened = true →
    vp.remaining = frames → vp.detection_frequency = n →
    frames.length < fuel →
    ((mainLoop sched (fun _ => true) save fuel vp).submitted.map
        (fun t => t.2.1)
      = vp.submitted.map (fun t => t.2.1) ++
        expectedIndices n vp.current_frame_index frames.length) ∧
    ((mainLoop sched (fun _ => true) save fuel vp).processed_frames
      = vp.processed_frames +
        (expectedIndices n vp.current_frame_index frames.length).length) := by
  intro frames
  induction frames with
  | nil =>
    intro fuel vp hp hop hrem hfreq hfuel
    obtain ⟨m, rfl⟩ : ∃ m, fuel = m + 1 := ⟨fuel - 1, by omega⟩
    rw [mainLoop, if_pos (by rw [hp]), read_frame_none_of_nil vp hrem]
    simp [expectedIndices_zero]
  | cons f rest ih =>
    intro fuel vp hp hop hrem hfreq hfuel
    obtain ⟨m, rfl⟩ : ∃ m, fuel = m + 1 := ⟨fuel - 1, by omega⟩
    rw [mainLoop, if_pos (by rw [hp]), read_frame_cons vp f rest hop hrem]
    dsimp only
    have hlen : rest.length < m := by
      have : rest.length + 1 < m + 1 := by simpa using hfuel
      omega
    by_cases hs : vp.current_frame_index % (vp.detection_frequency : ℤ) = 0
    · rw [if_pos hs, if_pos rfl]
      rw [hfreq] at hs
      set ts := if 0 < vp.video_fps then
        (vp.current_frame_index : ℚ) / vp.video_fps else 0 with hts
      set vp2 : VideoProcessor :=
        { vp with current_frame_index := vp.current_frame_index + 1,
                  remaining := rest,
                  submitted := vp.submitted ++
                    [(f, vp.current_frame_index, ts)],
                  processed_frames := vp.processed_frames + 1 } with hvp2
      obtain ⟨d1, d2, d3, d4, d5, d6, d7, d8, d9⟩ :=
        drainResults_untouched save (sched vp.current_frame_index) vp2
      have hp3 : (drainResults save vp2
          (sched vp.current_frame_index)).is_processing = true := by
        rw [d2]; exact hp
      have hop3 : (drainResults save vp2
          (sched vp.current_frame_index)).capture_opened = true := by
        rw [d7]; exact hop
      have hrem3 : (drainResults save vp2
          (sched vp.current_frame_index)).remaining = rest := by
        rw [d6]
      have hfreq3 : (drainResults save vp2
          (sched vp.current_frame_index)).detection_frequency = n := by
        rw [d8]; exact hfreq
      obtain ⟨ihs, ihp⟩ := ih m (drainResults save vp2
        (sched vp.current_frame_index)) hp3 hop3 hrem3 hfreq3 hlen
      constructor
      · rw [ihs, d3, d5]
        show (vp.submitted ++ [(f, vp.current_frame_index, ts)]).map
            (fun t => t.2.1) ++
            expectedIndices n (vp.current_frame_index + 1) rest.length = _
        rw [List.map_append, List.length_cons, expectedIndices_succ,
          if_pos hs]
        simp [List.append_assoc]
      · rw [ihp, d4, d5]
        show vp.processed_frames + 1 +
            (expectedIndices n (vp.current_frame_index + 1)
              rest.length).length = _
        rw [List.length_cons, expectedIndices_succ, if_pos hs]
        simp [List.length_append]
        omega
    · rw [if_neg hs, if_pos rfl]
      rw [hfreq] at hs
      set vp2 : VideoProcessor :=
        { vp with current_frame_index := vp.current_frame_index + 1,
                  remaining := rest } with hvp2
      obtain ⟨d1, d2, d3, d4, d5, d6, d7, d8, d9⟩ :=
        drainResults_untouched save (sched vp.current_frame_index) vp2
      have hp3 : (drainResults save vp2
          (sched vp.current_frame_index)).is_processing = true := by
        rw [d2]; exact hp
      have hop3 : (drainResults save vp2
          (sched vp.current_frame_index)).capture_opened = true := by
        rw [d7]; exact hop
      have hrem3 : (drainResults save vp2
          (sched vp.current_frame_index)).remaining = rest := by
        rw [d6]
      have hfreq3 : (drainResults save vp2
          (sched vp.current_frame_index)).detection_frequency = n := by
        rw [d8]; exact hfreq
      obtain ⟨ihs, ihp⟩ := ih m (drainResults save vp2
        (sched vp.current_frame_index)) hp3 hop3 hrem3 hfreq3 hlen
      constructor
      · rw [ihs, d3, d5]
        show vp.submitted.map (fun t => t.2.1) ++
            expectedIndices n (vp.current_frame_index + 1) rest.length = _
        rw [List.length_cons, expectedIndices_succ, if_neg hs]
        simp
      · rw [ihp, d4, d5]
        show vp.processed_frames +
            (expectedIndices n (vp.current_frame_index + 1)
              rest.length).length = _
        rw [List.length_cons, expectedIndices_succ, if_neg hs]
        simp

/-- C4: in a run that is never cancelled and reads the whole video,
exactly the frames whose index is a multiple of the sampling
frequency `n ≥ 1` are submitted to the worker queue, in order, and
`processed_frames` counts exactly them; with `n = 30` on a 301-frame
video these are the 11 indices {0, 30, ..., 300}. -/
theorem C4_sampling (sched : ℤ → List FrameResult)
    (save : Image → Option String) (vp : VideoProcessor) (n fuel : ℕ)
    (_hn : 1 ≤ n) (hopen : vp.capture_opened = true)
    (hfreq : vp.detection_frequency = n) (hsub : vp.submitted = [])
    (hfuel : vp.video_frames.length < fuel) :
    ((process_video sched (fun _ => true) save [] fuel vp).submitted.map
        (fun t => t.2.1) = expectedIndices n 0 vp.video_frames.length) ∧
    ((process_video sched (fun _ => true) save [] fuel
        vp).processed_frames
      = (expectedIndices n 0 vp.video_frames.length).length) ∧
    expectedIndices 30 0 301 =
      [0, 30, 60, 90, 120, 150, 180, 210, 240, 270, 300] := by
  obtain ⟨k1, k2⟩ := mainLoop_sampling sched save n vp.video_frames fuel
    (resetForRun vp) rfl hopen rfl hfreq hfuel
  have e1 : (resetForRun vp).submitted = [] := hsub
  have e2 : (resetForRun vp).current_frame_index = 0 := rfl
  have e3 : (resetForRun vp).processed_frames = 0 := rfl
  rw [e1, e2] at k1
  rw [e2, e3] at k2
  simp only [List.map_nil, List.nil_append] at k1
  simp only [Nat.zero_add] at k2
  refine ⟨?_, ?_, by decide⟩
  · unfold process_video
    rw [if_pos hopen]
    exact k1
  · unfold process_video
    rw [if_pos hopen]
    exact k2

/-- Witness for C4 on a 3-frame video sampled every 2 frames: frames
0 and 2 are submitted. -/
theorem C4_sampling_witness :
    (process_video schedC1 (fun _ => true) (fun _ => none) [] 4
        vpC4).submitted.map (fun t => t.2.1) = expectedIndices 2 0 3 ∧
    expectedIndices 2 0 3 = [0, 2] := by
  refine ⟨?_, by decide⟩
  exact (C4_sampling schedC1 (fun _ => none) vpC4 2 4 (by decide)
    rfl rfl rfl (by decide)).1
